import Mathlib

/-!
Verification of the hand-tracking script.  The script's algorithmic core is
shallowly embedded here: the per-frame tracking loop (which appends one
Detection record per detected hand, with a 1-based frame counter), the
movement-statistics engine calculate_movement_stats, and the tabular (CSV)
serialization of the record sequence.  Machine floats are modelled by exact
numbers: coordinates and the frame rate by rationals, distances and speeds
(which involve a square root) by reals.
-/

/-- Handedness label attached to each detection by the landmark source
(classification label of multi_handedness in the script). -/
inductive Hand where
  | Left
  | Right
  deriving DecidableEq, Repr

/-- One Detection record, as appended to csv_data in the tracking loop:
frame index (1-based), handedness, the wrist landmark coordinates and the
number of landmark points. -/
structure Record where
  frame : Nat
  hand : Hand
  wrist_x : ℚ
  wrist_y : ℚ
  wrist_z : ℚ
  num_landmarks : Nat
  deriving DecidableEq, Repr

/-- Insert a record into a list sorted by frame, after every element whose
frame number is less than or equal: this is the insertion step of a stable
sort by frame number. -/
def insertByFrame (a : Record) : List Record → List Record
  | [] => [a]
  | b :: l => if a.frame < b.frame then a :: b :: l else b :: insertByFrame a l

/-- Stable sort by frame number, modelling the in-place
hand_data.sort(key=lambda x: x[frame]) of the script (Python's list sort is
stable; a left fold of stable insertions computes the same permutation). -/
def sortByFrame (l : List Record) : List Record :=
  l.foldl (fun acc a => insertByFrame a acc) []

/-- Euclidean 3-D distance between the wrist positions of two records,
matching math.sqrt(dx**2 + dy**2 + dz**2) in the script. -/
noncomputable def dist3 (p c : Record) : ℝ :=
  Real.sqrt (((c.wrist_x : ℝ) - (p.wrist_x : ℝ)) ^ 2 +
    ((c.wrist_y : ℝ) - (p.wrist_y : ℝ)) ^ 2 +
    ((c.wrist_z : ℝ) - (p.wrist_z : ℝ)) ^ 2)

/-- The list of distances between consecutive records: the loop
for i in range(1, len(hand_data)) with prev = hand_data[i-1],
curr = hand_data[i]. -/
noncomputable def consecDistances (rs : List Record) : List ℝ :=
  (rs.zip rs.tail).map (fun pc => dist3 pc.1 pc.2)

/-- The list of speeds between consecutive records: appended only when the
frame difference is positive and fps > 0, with
speed = distance / (frame_diff / fps). -/
noncomputable def consecSpeeds (rs : List Record) (fps : ℚ) : List ℝ :=
  (rs.zip rs.tail).filterMap (fun pc =>
    let fd : ℤ := (pc.2.frame : ℤ) - (pc.1.frame : ℤ)
    if 0 < fd ∧ 0 < fps then
      some (dist3 pc.1 pc.2 / ((((fd : ℚ) / fps : ℚ) : ℝ)))
    else none)

/-- Python max() over a nonempty list of reals (left fold from the head);
0 on the empty list, where the script never calls it. -/
noncomputable def listMaxR : List ℝ → ℝ
  | [] => 0
  | x :: xs => xs.foldl max x

/-- Python min() over a nonempty list of reals. -/
noncomputable def listMinR : List ℝ → ℝ
  | [] => 0
  | x :: xs => xs.foldl min x

/-- Python max() over a nonempty list of rationals. -/
def listMaxQ : List ℚ → ℚ
  | [] => 0
  | x :: xs => xs.foldl max x

/-- Python min() over a nonempty list of rationals. -/
def listMinQ : List ℚ → ℚ
  | [] => 0
  | x :: xs => xs.foldl min x

/-- Python max() over a nonempty list of naturals (frame numbers). -/
def listMaxNat : List Nat → Nat
  | [] => 0
  | x :: xs => xs.foldl max x

/-- Population standard deviation, as computed by np.std. -/
noncomputable def popStd (l : List ℝ) : ℝ :=
  Real.sqrt ((l.map (fun x => (x - l.sum / (l.length : ℝ)) ^ 2)).sum / (l.length : ℝ))

/-- The per-hand statistics dictionary built by calculate_movement_stats for
a hand whose subset of records is nonempty. -/
structure HandStats where
  total_detections : Nat
  frames_active : Nat
  total_distance : ℝ
  avg_distance_per_frame : ℝ
  max_distance_per_frame : ℝ
  min_distance_per_frame : ℝ
  avg_speed : ℝ
  max_speed : ℝ
  min_speed : ℝ
  speed_std : ℝ
  x_range : ℚ
  y_range : ℚ
  z_range : ℚ
  com_x : ℚ
  com_y : ℚ
  com_z : ℚ

/-- The combined statistics dictionary of calculate_movement_stats. -/
structure CombinedStats where
  total_detections : Nat
  unique_frames : Nat
  detection_rate : ℚ
  deriving DecidableEq, Repr

/-- The full statistics aggregate: the sub-dictionaries for hands whose
subset was empty stay absent (the loop does continue), modelled as none. -/
structure MovementStats where
  left : Option HandStats
  right : Option HandStats
  combined : CombinedStats

/-- Per-hand statistics of the engine: sorts the subset by frame, then
computes counts, consecutive distances and speeds, ranges and centroid,
exactly as the body of the for hand_type loop does.  Each distance or speed
aggregate falls back to 0 when its series is empty, mirroring the else
branches of the script. -/
noncomputable def mkHandStats (rs : List Record) (fps : ℚ) : HandStats :=
  let hand_data := sortByFrame rs
  let distances := consecDistances hand_data
  let speeds := consecSpeeds hand_data fps
  let xs := hand_data.map (fun d => d.wrist_x)
  let ys := hand_data.map (fun d => d.wrist_y)
  let zs := hand_data.map (fun d => d.wrist_z)
  { total_detections := hand_data.length
    frames_active := (hand_data.map (fun d => d.frame)).dedup.length
    total_distance := if distances.isEmpty then 0 else distances.sum
    avg_distance_per_frame :=
      if distances.isEmpty then 0 else distances.sum / (distances.length : ℝ)
    max_distance_per_frame := if distances.isEmpty then 0 else listMaxR distances
    min_distance_per_frame := if distances.isEmpty then 0 else listMinR distances
    avg_speed := if speeds.isEmpty then 0 else speeds.sum / (speeds.length : ℝ)
    max_speed := if speeds.isEmpty then 0 else listMaxR speeds
    min_speed := if speeds.isEmpty then 0 else listMinR speeds
    speed_std :=
      if speeds.isEmpty then 0
      else if 1 < speeds.length then popStd speeds else 0
    x_range := if xs.isEmpty then 0 else listMaxQ xs - listMinQ xs
    y_range := if ys.isEmpty then 0 else listMaxQ ys - listMinQ ys
    z_range := if zs.isEmpty then 0 else listMaxQ zs - listMinQ zs
    com_x := if xs.isEmpty then 0 else xs.sum / (xs.length : ℚ)
    com_y := if ys.isEmpty then 0 else ys.sum / (ys.length : ℚ)
    com_z := if zs.isEmpty then 0 else zs.sum / (zs.length : ℚ) }

/-- The combined block of calculate_movement_stats: total detections,
distinct frame count, and detection rate = unique_frames / max_frame * 100
guarded by max_frame > 0. -/
def mkCombined (csv_data : List Record) : CombinedStats :=
  let frames := csv_data.map (fun d => d.frame)
  let max_frame := listMaxNat frames
  { total_detections := csv_data.length
    unique_frames := frames.dedup.length
    detection_rate :=
      if 0 < max_frame then ((frames.dedup.length : ℚ) / (max_frame : ℚ)) * 100
      else 0 }

/-- calculate_movement_stats(csv_data, fps): returns the empty dictionary
(modelled none) on empty input, otherwise per-hand statistics for each hand
whose filtered subset is nonempty, plus the combined block. -/
noncomputable def calculate_movement_stats (csv_data : List Record) (fps : ℚ) :
    Option MovementStats :=
  if csv_data.isEmpty then none
  else
    some
      { left :=
          if (csv_data.filter (fun d => d.hand == Hand.Left)).isEmpty then none
          else some (mkHandStats (csv_data.filter (fun d => d.hand == Hand.Left)) fps)
        right :=
          if (csv_data.filter (fun d => d.hand == Hand.Right)).isEmpty then none
          else some (mkHandStats (csv_data.filter (fun d => d.hand == Hand.Right)) fps)
        combined := mkCombined csv_data }

/-- Selects the per-hand sub-dictionary of the aggregate. -/
def MovementStats.forHand (s : MovementStats) : Hand → Option HandStats
  | Hand.Left => s.left
  | Hand.Right => s.right

/-- State-threaded view of the engine call: Python passes csv_data by
reference, but every per-hand pass binds hand_data to a fresh list built by
a comprehension and the in-place sort is applied to that copy only, while
all_data aliases csv_data and is only read; so the list the caller holds
after the call is the very list it passed.  The second component is
csv_data as seen by the caller after the call. -/
noncomputable def calculate_movement_stats_run (csv_data : List Record) (fps : ℚ) :
    Option MovementStats × List Record :=
  (calculate_movement_stats csv_data fps, csv_data)

/-- Result of the landmark source for one decoded frame: one entry per
detected hand, carrying handedness, the wrist landmark and the landmark
count. -/
structure Detection where
  hand : Hand
  x : ℚ
  y : ℚ
  z : ℚ
  landmark_len : Nat
  deriving DecidableEq, Repr

/-- The configured maximum-hands limit (max_num_hands=4 in the script). -/
def max_num_hands : Nat := 4

/-- Records appended for one frame: one per detection, with the current
1-based frame counter. -/
def recordsOf (idx : Nat) (dets : List Detection) : List Record :=
  dets.map (fun d =>
    { frame := idx, hand := d.hand, wrist_x := d.x, wrist_y := d.y,
      wrist_z := d.z, num_landmarks := d.landmark_len })

/-- The main tracking loop.  The input stream is the sequence of cap.read()
results: none models ret == False (a frame that fails to decode, or the end
of the video), some dets a decoded frame together with the landmark result.
On none the loop executes break; on a decoded frame it increments frame_idx
and appends one record per detection.  Returns the final frame_idx and
csv_data. -/
def trackLoop : List (Option (List Detection)) → Nat → List Record →
    Nat × List Record
  | [], idx, acc => (idx, acc)
  | none :: _, idx, acc => (idx, acc)
  | some dets :: rest, idx, acc =>
      trackLoop rest (idx + 1) (acc ++ recordsOf (idx + 1) dets)

/-- The tracking pass started from frame_idx = 0 and empty csv_data. -/
def trackRun (stream : List (Option (List Detection))) : Nat × List Record :=
  trackLoop stream 0 []

/-- Modelled from the spec: the decode-failure behavior the spec prescribes
for the tracking loop, which is not what the script does.  On a frame that
fails to decode, tracking for that frame is skipped (no records emitted,
the counter still increments) and the pass continues with the remaining
frames. -/
def trackLoopSkip : List (Option (List Detection)) → Nat → List Record →
    Nat × List Record
  | [], idx, acc => (idx, acc)
  | none :: rest, idx, acc => trackLoopSkip rest (idx + 1) acc
  | some dets :: rest, idx, acc =>
      trackLoopSkip rest (idx + 1) (acc ++ recordsOf (idx + 1) dets)

/-- The spec-prescribed pass started from frame_idx = 0 and empty data. -/
def trackRunSkip (stream : List (Option (List Detection))) : Nat × List Record :=
  trackLoopSkip stream 0 []

/-- The records the loop emits from a given stream when started at a given
counter value: per decoded frame a block of records, nothing at or after
the first failed read. -/
def emitted : List (Option (List Detection)) → Nat → List Record
  | [], _ => []
  | none :: _, _ => []
  | some dets :: rest, idx => recordsOf (idx + 1) dets ++ emitted rest (idx + 1)

/-- One CSV cell, modelled at the level of the typed values handed to
csv.DictWriter; the text rendering of numbers is the CSV library's
concern and is exactly invertible for the values the script writes. -/
inductive Cell where
  | natC : Nat → Cell
  | strC : String → Cell
  | ratC : ℚ → Cell
  deriving DecidableEq, Repr

/-- The string the script stores in the hand column. -/
def handLabel : Hand → String
  | Hand.Left => "Left"
  | Hand.Right => "Right"

/-- The fixed column order of the tabular file (csv_columns). -/
def csv_columns : List String :=
  ["frame", "hand", "wrist_x", "wrist_y", "wrist_z", "num_landmarks"]

/-- The header row written by writer.writeheader(). -/
def headerRow : List Cell := csv_columns.map Cell.strC

/-- One data row per record, fields in the fixed column order, as written
by writer.writerows(csv_data). -/
def rowOf (r : Record) : List Cell :=
  [Cell.natC r.frame, Cell.strC (handLabel r.hand), Cell.ratC r.wrist_x,
    Cell.ratC r.wrist_y, Cell.ratC r.wrist_z, Cell.natC r.num_landmarks]

/-- The whole tabular file: header row, then one row per record in
sequence order. -/
def writeCSV (rs : List Record) : List (List Cell) := headerRow :: rs.map rowOf

/-- Modelled from the spec: parsing of the hand column on re-reading the
tabular file; the repository itself never reads the file back. -/
def parseHand (s : String) : Option Hand :=
  if s = "Left" then some Hand.Left
  else if s = "Right" then some Hand.Right
  else none

/-- Modelled from the spec: re-reading one data row of the tabular file,
expecting the fixed column order frame, hand, x, y, z, landmark count. -/
def parseRow : List Cell → Option Record
  | [Cell.natC f, Cell.strC h, Cell.ratC x, Cell.ratC y, Cell.ratC z,
      Cell.natC n] =>
    (parseHand h).map (fun hd =>
      { frame := f, hand := hd, wrist_x := x, wrist_y := y, wrist_z := z,
        num_landmarks := n })
  | _ => none

/-- Modelled from the spec: re-reading the data rows of the tabular file in
order; any malformed row makes the whole read fail. -/
def parseRows : List (List Cell) → Option (List Record)
  | [] => some []
  | row :: rest =>
    match parseRow row, parseRows rest with
    | some r, some rs => some (r :: rs)
    | _, _ => none

/-- Modelled from the spec: re-reading the tabular file, checking the
required header row and parsing each data row in order. -/
def readCSV : List (List Cell) → Option (List Record)
  | [] => none
  | header :: body => if header = headerRow then parseRows body else none

/-- The total distance exactly as the spec words it: the sum of Euclidean
3-D distances between consecutive records of the (already selected and
sorted) subset. -/
noncomputable def specConsecSum : List Record → ℝ
  | a :: b :: rest => dist3 a b + specConsecSum (b :: rest)
  | _ => 0

/-! Helper lemmas. -/

lemma insertByFrame_perm (a : Record) (l : List Record) :
    (insertByFrame a l).Perm (a :: l) := by
  induction l with
  | nil => exact List.Perm.refl _
  | cons b t ih =>
    by_cases hab : a.frame < b.frame
    · simp [insertByFrame, hab]
    · simp only [insertByFrame, if_neg hab]
      exact (ih.cons b).trans (List.Perm.swap a b t)

lemma foldl_insert_perm :
    ∀ (l acc : List Record),
      (l.foldl (fun acc a => insertByFrame a acc) acc).Perm (acc ++ l)
  | [], acc => by simp
  | a :: t, acc => by
    have h1 := foldl_insert_perm t (insertByFrame a acc)
    have h2 : (insertByFrame a acc ++ t).Perm ((a :: acc) ++ t) :=
      (insertByFrame_perm a acc).append_right t
    have h3 : ((a :: acc) ++ t).Perm (acc ++ a :: t) :=
      (List.perm_middle).symm
    exact (h1.trans h2).trans h3

lemma sortByFrame_perm (l : List Record) : (sortByFrame l).Perm l := by
  simpa [sortByFrame] using foldl_insert_perm l []

section FoldMaxMin

variable {α : Type} [LinearOrder α]

lemma foldl_max_init_le : ∀ (xs : List α) (a : α), a ≤ xs.foldl max a
  | [], _ => le_refl _
  | y :: ys, a => le_trans (le_max_left a y) (foldl_max_init_le ys (max a y))

lemma foldl_max_le_of_mem :
    ∀ (xs : List α) (a x : α), x ∈ xs → x ≤ xs.foldl max a
  | [], _, _, hx => absurd hx (List.not_mem_nil _)
  | y :: ys, a, x, hx => by
    rcases List.mem_cons.mp hx with h | h
    · subst h
      exact le_trans (le_max_right a x) (foldl_max_init_le ys (max a x))
    · exact foldl_max_le_of_mem ys (max a y) x h

lemma foldl_max_cases :
    ∀ (xs : List α) (a : α), xs.foldl max a = a ∨ xs.foldl max a ∈ xs
  | [], _ => Or.inl rfl
  | y :: ys, a => by
    rcases foldl_max_cases ys (max a y) with h | h
    · rcases max_choice a y with hm | hm
      · left
        rw [List.foldl_cons, h, hm]
      · right
        rw [List.foldl_cons, h, hm]
        exact List.mem_cons_self _ _
    · right
      rw [List.foldl_cons]
      exact List.mem_cons_of_mem _ h

lemma foldl_min_le_init : ∀ (xs : List α) (a : α), xs.foldl min a ≤ a
  | [], _ => le_refl _
  | y :: ys, a => le_trans (foldl_min_le_init ys (min a y)) (min_le_left a y)

lemma foldl_min_le_of_mem :
    ∀ (xs : List α) (a x : α), x ∈ xs → xs.foldl min a ≤ x
  | [], _, _, hx => absurd hx (List.not_mem_nil _)
  | y :: ys, a, x, hx => by
    rcases List.mem_cons.mp hx with h | h
    · subst h
      exact le_trans (foldl_min_le_init ys (min a x)) (min_le_right a x)
    · exact foldl_min_le_of_mem ys (min a y) x h

lemma foldl_min_cases :
    ∀ (xs : List α) (a : α), xs.foldl min a = a ∨ xs.foldl min a ∈ xs
  | [], _ => Or.inl rfl
  | y :: ys, a => by
    rcases foldl_min_cases ys (min a y) with h | h
    · rcases min_choice a y with hm | hm
      · left
        rw [List.foldl_cons, h, hm]
      · right
        rw [List.foldl_cons, h, hm]
        exact List.mem_cons_self _ _
    · right
      rw [List.foldl_cons]
      exact List.mem_cons_of_mem _ h

end FoldMaxMin

lemma listMaxR_mem_or (l : List ℝ) (hl : l ≠ []) : listMaxR l ∈ l := by
  match l, hl with
  | x :: xs, _ =>
    rcases foldl_max_cases xs x with h | h
    · simp [listMaxR, h]
    · exact List.mem_cons_of_mem _ (by simpa [listMaxR] using h)

lemma le_listMaxR (l : List ℝ) (x : ℝ) (hx : x ∈ l) : x ≤ listMaxR l := by
  match l, hx with
  | y :: ys, hx =>
    rcases List.mem_cons.mp hx with h | h
    · subst h; exact foldl_max_init_le ys x
    · exact foldl_max_le_of_mem ys y x h

lemma listMinR_mem_or (l : List ℝ) (hl : l ≠ []) : listMinR l ∈ l := by
  match l, hl with
  | x :: xs, _ =>
    rcases foldl_min_cases xs x with h | h
    · simp [listMinR, h]
    · exact List.mem_cons_of_mem _ (by simpa [listMinR] using h)

lemma listMinR_le (l : List ℝ) (x : ℝ) (hx : x ∈ l) : listMinR l ≤ x := by
  match l, hx with
  | y :: ys, hx =>
    rcases List.mem_cons.mp hx with h | h
    · subst h; exact foldl_min_le_init ys x
    · exact foldl_min_le_of_mem ys y x h

lemma le_listMaxNat (l : List Nat) (x : Nat) (hx : x ∈ l) : x ≤ listMaxNat l := by
  match l, hx with
  | y :: ys, hx =>
    rcases List.mem_cons.mp hx with h | h
    · subst h; exact foldl_max_init_le ys x
    · exact foldl_max_le_of_mem ys y x h

lemma dist3_nonneg (p c : Record) : 0 ≤ dist3 p c := Real.sqrt_nonneg _

lemma consecDistances_nonneg (rs : List Record) :
    ∀ x ∈ consecDistances rs, 0 ≤ x := by
  intro x hx
  rcases List.mem_map.mp hx with ⟨pc, _, rfl⟩
  exact dist3_nonneg pc.1 pc.2

lemma consecSpeeds_nonneg (rs : List Record) (fps : ℚ) :
    ∀ x ∈ consecSpeeds rs fps, 0 ≤ x := by
  intro x hx
  rcases List.mem_filterMap.mp hx with ⟨pc, _, hsome⟩
  by_cases hc : 0 < (pc.2.frame : ℤ) - (pc.1.frame : ℤ) ∧ 0 < fps
  · simp only [consecSpeeds, if_pos hc, Option.some.injEq] at hsome
    subst hsome
    apply div_nonneg (dist3_nonneg _ _)
    have h1 : (0 : ℚ) ≤ ((pc.2.frame : ℤ) - (pc.1.frame : ℤ) : ℚ) / fps :=
      le_of_lt (div_pos (by exact_mod_cast hc.1) hc.2)
    exact_mod_cast h1
  · simp only [consecSpeeds, if_neg hc] at hsome
    exact absurd hsome (by simp)

lemma calc_some (csv_data : List Record) (fps : ℚ) (s : MovementStats)
    (h : calculate_movement_stats csv_data fps = some s) :
    csv_data.isEmpty = false ∧ s.combined = mkCombined csv_data ∧
    (∀ hd : Hand, s.forHand hd =
      (if (csv_data.filter (fun d => d.hand == hd)).isEmpty then none
       else some (mkHandStats (csv_data.filter (fun d => d.hand == hd)) fps))) := by
  unfold calculate_movement_stats at h
  by_cases he : csv_data.isEmpty = true
  · rw [if_pos he] at h
    exact Option.noConfusion h
  · rw [if_neg he] at h
    injection h with h
    subst h
    refine ⟨by simpa using he, rfl, ?_⟩
    intro hd
    cases hd <;> rfl

lemma forHand_some (csv_data : List Record) (fps : ℚ) (hd : Hand) (hs : HandStats)
    (h : (calculate_movement_stats csv_data fps).bind (fun s => s.forHand hd) =
      some hs) :
    hs = mkHandStats (csv_data.filter (fun d => d.hand == hd)) fps ∧
    (csv_data.filter (fun d => d.hand == hd)).isEmpty = false := by
  cases hcalc : calculate_movement_stats csv_data fps with
  | none => rw [hcalc] at h; exact Option.noConfusion h
  | some s =>
    rw [hcalc] at h
    simp only [Option.some_bind] at h
    obtain ⟨-, -, hhand⟩ := calc_some csv_data fps s hcalc
    rw [hhand hd] at h
    by_cases hemp : (csv_data.filter (fun d => d.hand == hd)).isEmpty = true
    · rw [if_pos hemp] at h
      exact Option.noConfusion h
    · rw [if_neg hemp] at h
      injection h with h
      exact ⟨h.symm, by simpa using hemp⟩

lemma parseHand_handLabel (h : Hand) : parseHand (handLabel h) = some h := by
  cases h <;> rfl

lemma parseRow_rowOf (r : Record) : parseRow (rowOf r) = some r := by
  obtain ⟨f, h, x, y, z, n⟩ := r
  cases h <;> rfl

lemma parseRows_map_rowOf (rs : List Record) :
    parseRows (rs.map rowOf) = some rs := by
  induction rs with
  | nil => rfl
  | cons r t ih => simp [parseRows, parseRow_rowOf r, ih]

/-- C8: writing the record sequence to the tabular file (header row, then
one row per record with the fixed column order frame, hand, x, y, z,
landmark count) and re-reading it reproduces the original sequence exactly,
with the same field values in the same order. -/
theorem csv_round_trip (rs : List Record) : readCSV (writeCSV rs) = some rs := by
  rw [writeCSV, readCSV, if_pos rfl]
  exact parseRows_map_rowOf rs

/-- C7: the statistics engine is a pure function of the record sequence and
frame rate: the state-threaded view of the call hands the caller back the
very record sequence it passed (Python sorts only the fresh per-hand
copies built by the list comprehensions), and the aggregate is exactly the
value of the pure function on (records, fps). -/
theorem stats_pure_no_mutation (csv_data : List Record) (fps : ℚ) :
    (calculate_movement_stats_run csv_data fps).2 = csv_data ∧
    (calculate_movement_stats_run csv_data fps).1 =
      calculate_movement_stats csv_data fps ∧
    calculate_movement_stats csv_data fps = calculate_movement_stats csv_data fps :=
  ⟨rfl, rfl, rfl⟩

/-- C4: on the empty record sequence the engine returns the empty aggregate
(the empty dictionary, modelled none) for every frame rate, raising nothing
(the embedded function is total); and whenever a hand's filtered subset is
empty, that hand's sub-dictionary is absent (none) rather than an error. -/
theorem stats_empty_cases :
    (∀ fps : ℚ, calculate_movement_stats [] fps = none) ∧
    (∀ (csv_data : List Record) (fps : ℚ) (hd : Hand),
      csv_data.filter (fun d => d.hand == hd) = [] →
      (calculate_movement_stats csv_data fps).bind (fun s => s.forHand hd) = none) := by
  constructor
  · intro fps
    rfl
  · intro csv_data fps hd hfil
    cases hcalc : calculate_movement_stats csv_data fps with
    | none => rfl
    | some s =>
      obtain ⟨-, -, hhand⟩ := calc_some csv_data fps s hcalc
      simp only [Option.some_bind, hhand hd, hfil]
      rfl

/-- C4 witness: a concrete one-record sequence with only a Right-hand
detection has no Left sub-dictionary, and the empty sequence gives the
empty aggregate. -/
theorem stats_empty_cases_witness :
    calculate_movement_stats [] 30 = none ∧
    ([Record.mk 1 Hand.Right 0 0 0 21].filter (fun d => d.hand == Hand.Left) = []) ∧
    (calculate_movement_stats [Record.mk 1 Hand.Right 0 0 0 21] 30).bind
      (fun s => s.forHand Hand.Left) = none :=
  ⟨stats_empty_cases.1 30, by decide,
    stats_empty_cases.2 [Record.mk 1 Hand.Right 0 0 0 21] 30 Hand.Left (by decide)⟩

lemma consecSpeeds_zero_fps (rs : List Record) : consecSpeeds rs 0 = [] := by
  rw [consecSpeeds, List.filterMap_eq_nil_iff]
  intro pc _
  rw [if_neg]
  rintro ⟨-, h0⟩
  exact lt_irrefl 0 h0

/-- C5: at frame rate zero the speed series stays empty (the guard
frame_diff > 0 and fps > 0 never holds), so the engine performs no division
by a zero time step and every speed aggregate of every produced per-hand
dictionary is the zero sentinel. -/
theorem zero_fps_speed_safe :
    (∀ rs : List Record, consecSpeeds rs 0 = []) ∧
    (∀ (csv_data : List Record) (hd : Hand) (hs : HandStats),
      (calculate_movement_stats csv_data 0).bind (fun s => s.forHand hd) = some hs →
      hs.avg_speed = 0 ∧ hs.max_speed = 0 ∧ hs.min_speed = 0 ∧ hs.speed_std = 0) := by
  constructor
  · exact consecSpeeds_zero_fps
  · intro csv_data hd hs h
    obtain ⟨rfl, -⟩ := forHand_some csv_data 0 hd hs h
    have hemp : (consecSpeeds
        (sortByFrame (csv_data.filter (fun d => d.hand == hd))) 0).isEmpty = true := by
      rw [consecSpeeds_zero_fps]
      rfl
    refine ⟨?_, ?_, ?_, ?_⟩ <;>
      simp only [mkHandStats, hemp, if_pos, if_true]

/-- C5 witness: the zero-frame-rate engine run on a concrete two-record
sequence reports every speed aggregate as zero. -/
theorem zero_fps_speed_safe_witness :
    (calculate_movement_stats
        [Record.mk 1 Hand.Left 0 0 0 21, Record.mk 2 Hand.Left 1 0 0 21] 0).bind
      (fun s => s.forHand Hand.Left) =
      some (mkHandStats
        ([Record.mk 1 Hand.Left 0 0 0 21, Record.mk 2 Hand.Left 1 0 0 21].filter
          (fun d => d.hand == Hand.Left)) 0) ∧
    ((mkHandStats
        ([Record.mk 1 Hand.Left 0 0 0 21, Record.mk 2 Hand.Left 1 0 0 21].filter
          (fun d => d.hand == Hand.Left)) 0).avg_speed = 0 ∧
      (mkHandStats
        ([Record.mk 1 Hand.Left 0 0 0 21, Record.mk 2 Hand.Left 1 0 0 21].filter
          (fun d => d.hand == Hand.Left)) 0).max_speed = 0 ∧
      (mkHandStats
        ([Record.mk 1 Hand.Left 0 0 0 21, Record.mk 2 Hand.Left 1 0 0 21].filter
          (fun d => d.hand == Hand.Left)) 0).min_speed = 0 ∧
      (mkHandStats
        ([Record.mk 1 Hand.Left 0 0 0 21, Record.mk 2 Hand.Left 1 0 0 21].filter
          (fun d => d.hand == Hand.Left)) 0).speed_std = 0) :=
  ⟨rfl, zero_fps_speed_safe.2
    [Record.mk 1 Hand.Left 0 0 0 21, Record.mk 2 Hand.Left 1 0 0 21]
    Hand.Left _ rfl⟩

/-- A concrete read stream: frame 1 decodes with one left-hand detection,
frame 2 fails to decode, frame 3 would decode with one right-hand
detection. -/
def failStream : List (Option (List Detection)) :=
  [some [Detection.mk Hand.Left 0 0 0 21], none,
    some [Detection.mk Hand.Right (1/2) (1/2) 0 21]]

/-- C1 counterexample: on failStream the script's loop stops at the failed
read (break on ret == False), ending with frame counter 1 and only the one
record of frame 1, while the spec-prescribed skip-and-continue pass would
end with counter 3 and two records; so a single decode failure does abort
the rest of the pass, the counter does not increment for the failed frame,
and no later frame is tracked. -/
theorem decode_failure_counterexample :
    trackRun failStream ≠ trackRunSkip failStream ∧
    (trackRun failStream).1 = 1 ∧ (trackRun failStream).2.length = 1 ∧
    (trackRunSkip failStream).1 = 3 ∧ (trackRunSkip failStream).2.length = 2 := by
  decide

/-- C1 (amended): when a frame fails to decode, the tracking pass stops
there: the output of the pass equals the output of processing only the
successfully decoded frames before the failure, so the counter does not
advance past the failure, no records are emitted for the failed frame or
any later frame, and the records of the earlier frames are kept. -/
theorem decode_failure_stops_pass (goods rest : List (Option (List Detection)))
    (idx : Nat) (acc : List Record)
    (h : goods.all Option.isSome = true) :
    trackLoop (goods ++ none :: rest) idx acc = trackLoop goods idx acc := by
  induction goods generalizing idx acc with
  | nil => rfl
  | cons g gs ih =>
    cases g with
    | none => simp at h
    | some dets =>
      simp only [List.all_cons, Bool.and_eq_true] at h
      simp only [List.cons_append, trackLoop]
      exact ih (idx + 1) (acc ++ recordsOf (idx + 1) dets) h.2

/-- C1 witness: the amended statement applied to the concrete stream with a
failure after one good frame. -/
theorem decode_failure_stops_pass_witness :
    ([some [Detection.mk Hand.Left 0 0 0 21]] :
        List (Option (List Detection))).all Option.isSome = true ∧
    trackLoop ([some [Detection.mk Hand.Left 0 0 0 21]] ++ none ::
        [some [Detection.mk Hand.Right (1/2) (1/2) 0 21]]) 0 [] =
      trackLoop [some [Detection.mk Hand.Left 0 0 0 21]] 0 [] :=
  ⟨by decide, decode_failure_stops_pass [some [Detection.mk Hand.Left 0 0 0 21]]
    [some [Detection.mk Hand.Right (1/2) (1/2) 0 21]] 0 [] (by decide)⟩

/-- First record of the spec's 3-4-5 triangle scenario. -/
def rec1 : Record := Record.mk 1 Hand.Left 0 0 0 21

/-- Second record of the scenario, at (0.3, 0.4, 0). -/
def rec2 : Record := Record.mk 2 Hand.Left (3/10) (4/10) 0 21

/-- Third record of the scenario, repeating the position of the second. -/
def rec3 : Record := Record.mk 3 Hand.Left (3/10) (4/10) 0 21

/-- The spec scenario: three left-hand records at frames 1, 2, 3. -/
def scenarioC2 : List Record := [rec1, rec2, rec3]

lemma ite_isEmpty_sum (l : List ℝ) :
    (if l.isEmpty then (0 : ℝ) else l.sum) = l.sum := by
  cases l <;> simp

lemma consecDistances_sum :
    ∀ rs : List Record, (consecDistances rs).sum = specConsecSum rs
  | [] => by simp [consecDistances, specConsecSum]
  | [a] => by simp [consecDistances, specConsecSum]
  | a :: b :: rest => by
    have h : consecDistances (a :: b :: rest) =
        dist3 a b :: consecDistances (b :: rest) := rfl
    rw [h, List.sum_cons, consecDistances_sum (b :: rest)]
    rfl

lemma dist3_rec1_rec2 : dist3 rec1 rec2 = 1 / 2 := by
  have hsq : ((rec2.wrist_x : ℝ) - (rec1.wrist_x : ℝ)) ^ 2 +
      ((rec2.wrist_y : ℝ) - (rec1.wrist_y : ℝ)) ^ 2 +
      ((rec2.wrist_z : ℝ) - (rec1.wrist_z : ℝ)) ^ 2 = (1 / 2 : ℝ) ^ 2 := by
    simp only [rec1, rec2]
    push_cast
    norm_num
  unfold dist3
  rw [hsq, Real.sqrt_sq (by norm_num : (0 : ℝ) ≤ 1 / 2)]

lemma dist3_rec2_rec3 : dist3 rec2 rec3 = 0 := by
  have hsq : ((rec3.wrist_x : ℝ) - (rec2.wrist_x : ℝ)) ^ 2 +
      ((rec3.wrist_y : ℝ) - (rec2.wrist_y : ℝ)) ^ 2 +
      ((rec3.wrist_z : ℝ) - (rec2.wrist_z : ℝ)) ^ 2 = 0 := by
    simp [rec2, rec3]
  unfold dist3
  rw [hsq, Real.sqrt_zero]

/-- C2: the per-hand total distance of the engine is the sum of Euclidean
3-D distances between consecutive records of the sorted hand subset (stated
both for mkHandStats on any list and through the full engine); the engine
is deterministic; and on the spec scenario of three left-hand records at
frame rate 30 the total distance is 0.5, the active frames are 3, the
maximum per-step distance is 0.5 and the minimum per-step distance is 0. -/
theorem total_distance_is_consecutive_sum :
    (∀ (rs : List Record) (fps : ℚ),
      (mkHandStats rs fps).total_distance = specConsecSum (sortByFrame rs)) ∧
    (∀ (csv_data : List Record) (fps : ℚ) (hd : Hand) (hs : HandStats),
      (calculate_movement_stats csv_data fps).bind (fun s => s.forHand hd) =
        some hs →
      hs.total_distance =
        specConsecSum (sortByFrame (csv_data.filter (fun d => d.hand == hd)))) ∧
    (∀ (csv_data : List Record) (fps : ℚ),
      calculate_movement_stats csv_data fps =
        calculate_movement_stats csv_data fps) ∧
    ((calculate_movement_stats scenarioC2 30).bind (fun s => s.left)).map
      (fun h => h.total_distance) = some (1 / 2) ∧
    ((calculate_movement_stats scenarioC2 30).bind (fun s => s.left)).map
      (fun h => h.frames_active) = some 3 ∧
    ((calculate_movement_stats scenarioC2 30).bind (fun s => s.left)).map
      (fun h => h.max_distance_per_frame) = some (1 / 2) ∧
    ((calculate_movement_stats scenarioC2 30).bind (fun s => s.left)).map
      (fun h => h.min_distance_per_frame) = some 0 := by
  have hmk : ∀ (rs : List Record) (fps : ℚ),
      (mkHandStats rs fps).total_distance = specConsecSum (sortByFrame rs) := by
    intro rs fps
    simp only [mkHandStats]
    rw [ite_isEmpty_sum, consecDistances_sum]
  have hsort : sortByFrame scenarioC2 = scenarioC2 := rfl
  have hbind : (calculate_movement_stats scenarioC2 30).bind (fun s => s.left) =
      some (mkHandStats scenarioC2 30) := rfl
  have hds : consecDistances scenarioC2 = [dist3 rec1 rec2, dist3 rec2 rec3] := rfl
  refine ⟨hmk, ?_, fun _ _ => rfl, ?_, ?_, ?_, ?_⟩
  · intro csv_data fps hd hs h
    obtain ⟨rfl, -⟩ := forHand_some csv_data fps hd hs h
    exact hmk _ fps
  · rw [hbind, Option.map_some']
    have hv : (mkHandStats scenarioC2 30).total_distance = 1 / 2 := by
      rw [hmk, hsort]
      have hspec : specConsecSum scenarioC2 =
          dist3 rec1 rec2 + (dist3 rec2 rec3 + 0) := rfl
      rw [hspec, dist3_rec1_rec2, dist3_rec2_rec3]
      norm_num
    rw [hv]
  · rw [hbind, Option.map_some']
    rfl
  · rw [hbind, Option.map_some']
    have hv : (mkHandStats scenarioC2 30).max_distance_per_frame = 1 / 2 := by
      simp only [mkHandStats]
      rw [hsort, hds, if_neg (by simp)]
      show listMaxR [dist3 rec1 rec2, dist3 rec2 rec3] = 1 / 2
      simp only [listMaxR, List.foldl_cons, List.foldl_nil]
      rw [dist3_rec1_rec2, dist3_rec2_rec3,
        max_eq_left (by norm_num : (0 : ℝ) ≤ 1 / 2)]
    rw [hv]
  · rw [hbind, Option.map_some']
    have hv : (mkHandStats scenarioC2 30).min_distance_per_frame = 0 := by
      simp only [mkHandStats]
      rw [hsort, hds, if_neg (by simp)]
      show listMinR [dist3 rec1 rec2, dist3 rec2 rec3] = 0
      simp only [listMinR, List.foldl_cons, List.foldl_nil]
      rw [dist3_rec1_rec2, dist3_rec2_rec3,
        min_eq_right (by norm_num : (0 : ℝ) ≤ 1 / 2)]
    rw [hv]

lemma dedup_length_eq_iff {α : Type} [DecidableEq α] (l : List α) :
    l.dedup.length = l.length ↔ l.Nodup := by
  constructor
  · intro h
    have heq := (List.dedup_sublist l).eq_of_length h
    rw [← heq]
    exact List.nodup_dedup l
  · intro h
    rw [h.dedup]

/-- The spec's anomalous-duplicate scenario: the same left hand detected
twice in frame 5. -/
def dupData : List Record :=
  [Record.mk 5 Hand.Left 0 0 0 21, Record.mk 5 Hand.Left (1/10) 0 0 21]

/-- C3: for a nonempty record sequence, every produced per-hand dictionary
has frames_active at most total_detections, with equality exactly when no
frame number occurs more than once in that hand's subset; and on the
concrete duplicate-in-frame-5 scenario the left hand gets frames_active 1
and total_detections 2. -/
theorem active_frames_le_detections :
    (∀ (csv_data : List Record) (fps : ℚ) (hd : Hand) (hs : HandStats),
      csv_data ≠ [] →
      (calculate_movement_stats csv_data fps).bind (fun s => s.forHand hd) =
        some hs →
      hs.frames_active ≤ hs.total_detections ∧
      (hs.frames_active = hs.total_detections ↔
        ∀ f : Nat,
          ((csv_data.filter (fun d => d.hand == hd)).map
            (fun d => d.frame)).count f ≤ 1)) ∧
    ((calculate_movement_stats dupData 30).bind (fun s => s.left)).map
      (fun h => h.frames_active) = some 1 ∧
    ((calculate_movement_stats dupData 30).bind (fun s => s.left)).map
      (fun h => h.total_detections) = some 2 := by
  refine ⟨?_, rfl, rfl⟩
  intro csv_data fps hd hs _ h
  obtain ⟨rfl, -⟩ := forHand_some csv_data fps hd hs h
  have hperm : ((sortByFrame (csv_data.filter (fun d => d.hand == hd))).map
      (fun d => d.frame)).Perm
      ((csv_data.filter (fun d => d.hand == hd)).map (fun d => d.frame)) :=
    (sortByFrame_perm _).map _
  have hfa : (mkHandStats (csv_data.filter (fun d => d.hand == hd)) fps).frames_active =
      ((sortByFrame (csv_data.filter (fun d => d.hand == hd))).map
        (fun d => d.frame)).dedup.length := rfl
  have htd : (mkHandStats (csv_data.filter (fun d => d.hand == hd)) fps).total_detections =
      ((sortByFrame (csv_data.filter (fun d => d.hand == hd))).map
        (fun d => d.frame)).length := by
    simp only [mkHandStats, List.length_map]
  constructor
  · rw [hfa, htd]
    exact (List.dedup_sublist _).length_le
  · rw [hfa, htd, dedup_length_eq_iff, hperm.nodup_iff,
      List.nodup_iff_count_le_one]

/-- C3 witness: the general statement applied to the duplicate-in-frame-5
scenario. -/
theorem active_frames_le_detections_witness :
    dupData ≠ [] ∧
    (calculate_movement_stats dupData 30).bind (fun s => s.forHand Hand.Left) =
      some (mkHandStats (dupData.filter (fun d => d.hand == Hand.Left)) 30) ∧
    ((mkHandStats (dupData.filter (fun d => d.hand == Hand.Left)) 30).frames_active ≤
        (mkHandStats (dupData.filter (fun d => d.hand == Hand.Left)) 30).total_detections ∧
      ((mkHandStats (dupData.filter (fun d => d.hand == Hand.Left)) 30).frames_active =
          (mkHandStats (dupData.filter (fun d => d.hand == Hand.Left)) 30).total_detections ↔
        ∀ f : Nat,
          ((dupData.filter (fun d => d.hand == Hand.Left)).map
            (fun d => d.frame)).count f ≤ 1)) :=
  ⟨by decide, rfl,
    active_frames_le_detections.1 dupData 30 Hand.Left _ (by decide) rfl⟩

/-- The spec's two-hands-in-one-frame scenario: one left-hand and one
right-hand detection, both in frame 3. -/
def pairData : List Record :=
  [Record.mk 3 Hand.Left 0 0 0 21, Record.mk 3 Hand.Right (1/10) 0 0 21]

/-- C6: for a nonempty record sequence the combined block reports the total
detections over both hands, the number of distinct frame numbers carrying a
detection of either hand, and a detection rate of distinct frames divided
by the maximum frame number seen times 100, with the division guarded when
the maximum is zero; on the concrete two-hands-in-one-frame scenario the
combined active-frame count is 1, each per-hand active-frame count is 1,
and the combined total detections is 2. -/
theorem combined_aggregate :
    (∀ (csv_data : List Record) (fps : ℚ) (c : CombinedStats),
      csv_data ≠ [] →
      (calculate_movement_stats csv_data fps).map (fun s => s.combined) = some c →
      c.total_detections = csv_data.length ∧
      c.unique_frames = (csv_data.map (fun d => d.frame)).toFinset.card ∧
      (0 < listMaxNat (csv_data.map (fun d => d.frame)) →
        c.detection_rate =
          ((csv_data.map (fun d => d.frame)).toFinset.card : ℚ) /
            (listMaxNat (csv_data.map (fun d => d.frame)) : ℚ) * 100) ∧
      (listMaxNat (csv_data.map (fun d => d.frame)) = 0 →
        c.detection_rate = 0)) ∧
    (calculate_movement_stats pairData 30).map (fun s => s.combined.unique_frames) =
      some 1 ∧
    ((calculate_movement_stats pairData 30).bind (fun s => s.left)).map
      (fun h => h.frames_active) = some 1 ∧
    ((calculate_movement_stats pairData 30).bind (fun s => s.right)).map
      (fun h => h.frames_active) = some 1 ∧
    (calculate_movement_stats pairData 30).map (fun s => s.combined.total_detections) =
      some 2 := by
  refine ⟨?_, rfl, rfl, rfl, rfl⟩
  intro csv_data fps c _ h
  cases hcalc : calculate_movement_stats csv_data fps with
  | none => rw [hcalc] at h; exact Option.noConfusion h
  | some s =>
    rw [hcalc, Option.map_some'] at h
    injection h with h
    obtain ⟨-, hcomb, -⟩ := calc_some csv_data fps s hcalc
    subst h
    rw [hcomb]
    have hdedup : ((csv_data.map (fun d => d.frame)).dedup.length : ℚ) =
        ((csv_data.map (fun d => d.frame)).toFinset.card : ℚ) := by
      rw [List.card_toFinset]
    refine ⟨rfl, by rw [List.card_toFinset]; rfl, ?_, ?_⟩
    · intro hpos
      simp only [mkCombined]
      rw [if_pos hpos, hdedup]
    · intro hzero
      simp only [mkCombined]
      rw [if_neg (by rw [hzero]; exact lt_irrefl 0)]

/-- C6 witness: the general combined-block statement applied to the
two-hands-in-one-frame scenario. -/
theorem combined_aggregate_witness :
    pairData ≠ [] ∧
    (calculate_movement_stats pairData 30).map (fun s => s.combined) =
      some (mkCombined pairData) ∧
    ((mkCombined pairData).total_detections = pairData.length ∧
      (mkCombined pairData).unique_frames =
        (pairData.map (fun d => d.frame)).toFinset.card ∧
      (0 < listMaxNat (pairData.map (fun d => d.frame)) →
        (mkCombined pairData).detection_rate =
          ((pairData.map (fun d => d.frame)).toFinset.card : ℚ) /
            (listMaxNat (pairData.map (fun d => d.frame)) : ℚ) * 100) ∧
      (listMaxNat (pairData.map (fun d => d.frame)) = 0 →
        (mkCombined pairData).detection_rate = 0)) :=
  ⟨by decide, rfl, combined_aggregate.1 pairData 30 (mkCombined pairData)
    (by decide) rfl⟩

lemma recordsOf_frame (idx : Nat) (dets : List Detection) :
    ∀ r ∈ recordsOf idx dets, r.frame = idx := by
  intro r hr
  rcases List.mem_map.mp hr with ⟨d, -, rfl⟩
  rfl

lemma recordsOf_length (idx : Nat) (dets : List Detection) :
    (recordsOf idx dets).length = dets.length := by
  simp [recordsOf]

lemma emitted_cons_some (dets : List Detection)
    (rest : List (Option (List Detection))) (idx : Nat) :
    emitted (some dets :: rest) idx =
      recordsOf (idx + 1) dets ++ emitted rest (idx + 1) := rfl

lemma emitted_frame_gt :
    ∀ (stream : List (Option (List Detection))) (idx : Nat) (r : Record),
      r ∈ emitted stream idx → idx < r.frame
  | [], _, _, hr => absurd hr (List.not_mem_nil _)
  | none :: _, _, _, hr => absurd hr (List.not_mem_nil _)
  | some dets :: rest, idx, r, hr => by
    rcases List.mem_append.mp hr with h | h
    · rw [recordsOf_frame (idx + 1) dets r h]
      exact Nat.lt_succ_self idx
    · exact Nat.lt_of_succ_lt (emitted_frame_gt rest (idx + 1) r h)

lemma trackLoop_snd :
    ∀ (stream : List (Option (List Detection))) (idx : Nat) (acc : List Record),
      (trackLoop stream idx acc).2 = acc ++ emitted stream idx
  | [], idx, acc => by simp [trackLoop, emitted]
  | none :: rest, idx, acc => by simp [trackLoop, emitted]
  | some dets :: rest, idx, acc => by
    show (trackLoop rest (idx + 1) (acc ++ recordsOf (idx + 1) dets)).2 = _
    rw [trackLoop_snd rest (idx + 1) (acc ++ recordsOf (idx + 1) dets),
      emitted_cons_some, List.append_assoc]

lemma emitted_pairwise :
    ∀ (stream : List (Option (List Detection))) (idx : Nat),
      (emitted stream idx).Pairwise (fun a b => a.frame ≤ b.frame)
  | [], _ => List.Pairwise.nil
  | none :: _, _ => List.Pairwise.nil
  | some dets :: rest, idx => by
    rw [emitted_cons_some, List.pairwise_append]
    refine ⟨?_, emitted_pairwise rest (idx + 1), ?_⟩
    · apply List.pairwise_of_forall_mem_list
      intro a ha b hb
      rw [recordsOf_frame _ _ a ha, recordsOf_frame _ _ b hb]
    · intro a ha b hb
      rw [recordsOf_frame _ _ a ha]
      exact Nat.le_of_lt (emitted_frame_gt rest (idx + 1) b hb)

lemma emitted_count_le :
    ∀ (stream : List (Option (List Detection))) (idx i : Nat),
      (∀ dets, some dets ∈ stream → dets.length ≤ max_num_hands) →
      ((emitted stream idx).filter (fun r => r.frame == i)).length ≤ max_num_hands
  | [], _, _, _ => by simp [emitted, max_num_hands]
  | none :: rest, _, _, _ => by simp [emitted, max_num_hands]
  | some dets :: rest, idx, i, h => by
    rw [emitted_cons_some, List.filter_append, List.length_append]
    by_cases hi : i = idx + 1
    · have h2 : ((emitted rest (idx + 1)).filter (fun r => r.frame == i)).length = 0 := by
        rw [List.length_eq_zero, List.filter_eq_nil_iff]
        intro r hr
        have hgt := emitted_frame_gt rest (idx + 1) r hr
        simp only [beq_iff_eq]
        omega
      rw [h2, Nat.add_zero]
      calc ((recordsOf (idx + 1) dets).filter (fun r => r.frame == i)).length
          ≤ (recordsOf (idx + 1) dets).length := List.length_filter_le _ _
        _ = dets.length := recordsOf_length _ _
        _ ≤ max_num_hands := h dets (List.mem_cons_self _ _)
    · have h1 : ((recordsOf (idx + 1) dets).filter (fun r => r.frame == i)).length = 0 := by
        rw [List.length_eq_zero, List.filter_eq_nil_iff]
        intro r hr
        have hfr := recordsOf_frame (idx + 1) dets r hr
        simp only [beq_iff_eq]
        omega
      rw [h1, Nat.zero_add]
      exact emitted_count_le rest (idx + 1) i
        (fun dets2 hd => h dets2 (List.mem_cons_of_mem _ hd))

/-- C9: during the tracking pass the record sequence is append-only (the
loop only ever appends to csv_data), the frame numbers across the emitted
sequence are monotonically non-decreasing, every emitted frame number is a
positive 1-based index, and, provided the landmark source honors the
configured maximum-hands limit per frame, each frame contributes at most
max_num_hands records. -/
theorem tracking_invariants :
    (∀ (stream : List (Option (List Detection))) (idx : Nat) (acc : List Record),
      ∃ new, (trackLoop stream idx acc).2 = acc ++ new) ∧
    (∀ stream : List (Option (List Detection)),
      ((trackRun stream).2.Pairwise (fun a b => a.frame ≤ b.frame)) ∧
      (∀ r ∈ (trackRun stream).2, 1 ≤ r.frame)) ∧
    (∀ stream : List (Option (List Detection)),
      (stream.all (fun o => (o.getD []).length ≤ max_num_hands)) = true →
      ∀ i : Nat,
        ((trackRun stream).2.filter (fun r => r.frame == i)).length ≤
          max_num_hands) := by
  have hrun : ∀ stream : List (Option (List Detection)),
      (trackRun stream).2 = emitted stream 0 := by
    intro stream
    rw [trackRun, trackLoop_snd, List.nil_append]
  refine ⟨?_, ?_, ?_⟩
  · intro stream idx acc
    exact ⟨emitted stream idx, trackLoop_snd stream idx acc⟩
  · intro stream
    rw [hrun]
    exact ⟨emitted_pairwise stream 0,
      fun r hr => Nat.succ_le_of_lt (emitted_frame_gt stream 0 r hr)⟩
  · intro stream hall i
    rw [hrun]
    apply emitted_count_le
    intro dets hd
    have := List.all_eq_true.mp hall (some dets) hd
    simpa using this

/-- C9 witness: the invariants applied to a concrete two-frame stream whose
frames hold at most max_num_hands detections. -/
theorem tracking_invariants_witness :
    (([some [Detection.mk Hand.Left 0 0 0 21],
        some [Detection.mk Hand.Left 0 0 0 21, Detection.mk Hand.Right 0 0 0 21]] :
      List (Option (List Detection))).all
        (fun o => (o.getD []).length ≤ max_num_hands)) = true ∧
    (∀ i : Nat,
      ((trackRun [some [Detection.mk Hand.Left 0 0 0 21],
          some [Detection.mk Hand.Left 0 0 0 21,
            Detection.mk Hand.Right 0 0 0 21]]).2.filter
        (fun r => r.frame == i)).length ≤ max_num_hands) :=
  ⟨by decide, tracking_invariants.2.2
    [some [Detection.mk Hand.Left 0 0 0 21],
      some [Detection.mk Hand.Left 0 0 0 21, Detection.mk Hand.Right 0 0 0 21]]
    (by decide)⟩

lemma series_bounds (l : List ℝ) (hnn : ∀ x ∈ l, 0 ≤ x) :
    0 ≤ (if l.isEmpty then (0 : ℝ) else listMinR l) ∧
    (if l.isEmpty then (0 : ℝ) else listMinR l) ≤
      (if l.isEmpty then (0 : ℝ) else l.sum / (l.length : ℝ)) ∧
    (if l.isEmpty then (0 : ℝ) else l.sum / (l.length : ℝ)) ≤
      (if l.isEmpty then (0 : ℝ) else listMaxR l) ∧
    (if l.isEmpty then (0 : ℝ) else listMaxR l) ≤
      (if l.isEmpty then (0 : ℝ) else l.sum) := by
  by_cases he : l.isEmpty = true
  · simp [he]
  · have hne : l ≠ [] := fun hl => he (by simp [hl])
    have hlen : 0 < (l.length : ℝ) := by
      have hp : 0 < l.length := List.length_pos.mpr hne
      exact_mod_cast hp
    simp only [he, Bool.false_eq_true, if_false]
    refine ⟨hnn _ (listMinR_mem_or l hne), ?_, ?_, ?_⟩
    · rw [le_div_iff₀ hlen]
      calc listMinR l * (l.length : ℝ) = l.length • listMinR l := by
            rw [nsmul_eq_mul, mul_comm]
        _ ≤ l.sum := List.card_nsmul_le_sum l _ (fun x hx => listMinR_le l x hx)
    · rw [div_le_iff₀ hlen]
      calc l.sum ≤ l.length • listMaxR l :=
            List.sum_le_card_nsmul l _ (fun x hx => le_listMaxR l x hx)
        _ = listMaxR l * (l.length : ℝ) := by rw [nsmul_eq_mul, mul_comm]
    · exact List.single_le_sum hnn _ (listMaxR_mem_or l hne)

/-- C10: every per-hand dictionary the engine produces satisfies
0 ≤ min ≤ avg ≤ max ≤ total on the per-step distances and
0 ≤ min ≤ avg ≤ max on the speeds, and the combined detection rate always
lies in [0, 100] when every recorded frame number is positive. -/
theorem stats_bounds :
    (∀ (csv_data : List Record) (fps : ℚ) (hd : Hand) (hs : HandStats),
      (calculate_movement_stats csv_data fps).bind (fun s => s.forHand hd) =
        some hs →
      0 ≤ hs.min_distance_per_frame ∧
      hs.min_distance_per_frame ≤ hs.avg_distance_per_frame ∧
      hs.avg_distance_per_frame ≤ hs.max_distance_per_frame ∧
      hs.max_distance_per_frame ≤ hs.total_distance ∧
      0 ≤ hs.min_speed ∧ hs.min_speed ≤ hs.avg_speed ∧
      hs.avg_speed ≤ hs.max_speed) ∧
    (∀ (csv_data : List Record) (fps : ℚ) (c : CombinedStats),
      (csv_data.all (fun r => 1 ≤ r.frame)) = true →
      (calculate_movement_stats csv_data fps).map (fun s => s.combined) = some c →
      0 ≤ c.detection_rate ∧ c.detection_rate ≤ 100) := by
  constructor
  · intro csv_data fps hd hs h
    obtain ⟨rfl, -⟩ := forHand_some csv_data fps hd hs h
    have hd1 := series_bounds
      (consecDistances (sortByFrame (csv_data.filter (fun d => d.hand == hd))))
      (consecDistances_nonneg _)
    have hs1 := series_bounds
      (consecSpeeds (sortByFrame (csv_data.filter (fun d => d.hand == hd))) fps)
      (consecSpeeds_nonneg _ fps)
    simp only [mkHandStats]
    exact ⟨hd1.1, hd1.2.1, hd1.2.2.1, hd1.2.2.2, hs1.1, hs1.2.1, hs1.2.2.1⟩
  · intro csv_data fps c hall h
    have hframes : ∀ r ∈ csv_data, 1 ≤ r.frame := by
      intro r hr
      have := List.all_eq_true.mp hall r hr
      simpa using this
    cases hcalc : calculate_movement_stats csv_data fps with
    | none => rw [hcalc] at h; exact Option.noConfusion h
    | some s =>
      rw [hcalc, Option.map_some'] at h
      injection h with h
      obtain ⟨-, hcomb, -⟩ := calc_some csv_data fps s hcalc
      subst h
      rw [hcomb]
      simp only [mkCombined]
      by_cases hmf : 0 < listMaxNat (csv_data.map (fun d => d.frame))
      · rw [if_pos hmf]
        have hmfq : (0 : ℚ) < (listMaxNat (csv_data.map (fun d => d.frame)) : ℚ) := by
          exact_mod_cast hmf
        constructor
        · positivity
        · have hle : (csv_data.map (fun d => d.frame)).dedup.length ≤
              listMaxNat (csv_data.map (fun d => d.frame)) := by
            have hnd := List.nodup_dedup (csv_data.map (fun d => d.frame))
            rw [← List.toFinset_card_of_nodup hnd]
            have hsub : (csv_data.map (fun d => d.frame)).dedup.toFinset ⊆
                Finset.Icc 1 (listMaxNat (csv_data.map (fun d => d.frame))) := by
              intro a ha
              rw [List.mem_toFinset, List.mem_dedup] at ha
              rcases List.mem_map.mp ha with ⟨r, hr, rfl⟩
              rw [Finset.mem_Icc]
              exact ⟨hframes r hr, le_listMaxNat _ _ ha⟩
            calc (csv_data.map (fun d => d.frame)).dedup.toFinset.card
                ≤ (Finset.Icc 1 (listMaxNat (csv_data.map (fun d => d.frame)))).card :=
                  Finset.card_le_card hsub
              _ = listMaxNat (csv_data.map (fun d => d.frame)) := by
                  rw [Nat.card_Icc]
                  omega
          have hleq : ((csv_data.map (fun d => d.frame)).dedup.length : ℚ) ≤
              (listMaxNat (csv_data.map (fun d => d.frame)) : ℚ) := by
            exact_mod_cast hle
          calc ((csv_data.map (fun d => d.frame)).dedup.length : ℚ) /
                (listMaxNat (csv_data.map (fun d => d.frame)) : ℚ) * 100
              ≤ 1 * 100 := by
                apply mul_le_mul_of_nonneg_right _ (by norm_num)
                rw [div_le_one hmfq]
                exact hleq
            _ = 100 := one_mul 100
      · rw [if_neg hmf]
        norm_num

/-- C10 witness: the bounds applied to a concrete two-record left-hand
sequence at frame rate 30. -/
theorem stats_bounds_witness :
    ((calculate_movement_stats
        [Record.mk 1 Hand.Left 0 0 0 21, Record.mk 2 Hand.Left 1 1 0 21] 30).bind
      (fun s => s.forHand Hand.Left) =
      some (mkHandStats
        ([Record.mk 1 Hand.Left 0 0 0 21, Record.mk 2 Hand.Left 1 1 0 21].filter
          (fun d => d.hand == Hand.Left)) 30)) ∧
    (0 ≤ (mkHandStats
        ([Record.mk 1 Hand.Left 0 0 0 21, Record.mk 2 Hand.Left 1 1 0 21].filter
          (fun d => d.hand == Hand.Left)) 30).min_distance_per_frame ∧
      (mkHandStats
        ([Record.mk 1 Hand.Left 0 0 0 21, Record.mk 2 Hand.Left 1 1 0 21].filter
          (fun d => d.hand == Hand.Left)) 30).min_distance_per_frame ≤
        (mkHandStats
        ([Record.mk 1 Hand.Left 0 0 0 21, Record.mk 2 Hand.Left 1 1 0 21].filter
          (fun d => d.hand == Hand.Left)) 30).avg_distance_per_frame ∧
      (mkHandStats
        ([Record.mk 1 Hand.Left 0 0 0 21, Record.mk 2 Hand.Left 1 1 0 21].filter
          (fun d => d.hand == Hand.Left)) 30).avg_distance_per_frame ≤
        (mkHandStats
        ([Record.mk 1 Hand.Left 0 0 0 21, Record.mk 2 Hand.Left 1 1 0 21].filter
          (fun d => d.hand == Hand.Left)) 30).max_distance_per_frame ∧
      (mkHandStats
        ([Record.mk 1 Hand.Left 0 0 0 21, Record.mk 2 Hand.Left 1 1 0 21].filter
          (fun d => d.hand == Hand.Left)) 30).max_distance_per_frame ≤
        (mkHandStats
        ([Record.mk 1 Hand.Left 0 0 0 21, Record.mk 2 Hand.Left 1 1 0 21].filter
          (fun d => d.hand == Hand.Left)) 30).total_distance ∧
      0 ≤ (mkHandStats
        ([Record.mk 1 Hand.Left 0 0 0 21, Record.mk 2 Hand.Left 1 1 0 21].filter
          (fun d => d.hand == Hand.Left)) 30).min_speed ∧
      (mkHandStats
        ([Record.mk 1 Hand.Left 0 0 0 21, Record.mk 2 Hand.Left 1 1 0 21].filter
          (fun d => d.hand == Hand.Left)) 30).min_speed ≤
        (mkHandStats
        ([Record.mk 1 Hand.Left 0 0 0 21, Record.mk 2 Hand.Left 1 1 0 21].filter
          (fun d => d.hand == Hand.Left)) 30).avg_speed ∧
      (mkHandStats
        ([Record.mk 1 Hand.Left 0 0 0 21, Record.mk 2 Hand.Left 1 1 0 21].filter
          (fun d => d.hand == Hand.Left)) 30).avg_speed ≤
        (mkHandStats
        ([Record.mk 1 Hand.Left 0 0 0 21, Record.mk 2 Hand.Left 1 1 0 21].filter
          (fun d => d.hand == Hand.Left)) 30).max_speed) ∧
    (([Record.mk 1 Hand.Left 0 0 0 21,
        Record.mk 2 Hand.Left 1 1 0 21].all (fun r => 1 ≤ r.frame)) = true) ∧
    ((calculate_movement_stats
        [Record.mk 1 Hand.Left 0 0 0 21, Record.mk 2 Hand.Left 1 1 0 21] 30).map
      (fun s => s.combined) =
      some (mkCombined [Record.mk 1 Hand.Left 0 0 0 21, Record.mk 2 Hand.Left 1 1 0 21])) ∧
    (0 ≤ (mkCombined [Record.mk 1 Hand.Left 0 0 0 21,
        Record.mk 2 Hand.Left 1 1 0 21]).detection_rate ∧
      (mkCombined [Record.mk 1 Hand.Left 0 0 0 21,
        Record.mk 2 Hand.Left 1 1 0 21]).detection_rate ≤ 100) :=
  ⟨rfl,
    stats_bounds.1 [Record.mk 1 Hand.Left 0 0 0 21, Record.mk 2 Hand.Left 1 1 0 21]
      30 Hand.Left _ rfl,
    by decide, rfl,
    stats_bounds.2 [Record.mk 1 Hand.Left 0 0 0 21, Record.mk 2 Hand.Left 1 1 0 21]
      30 _ (by decide) rfl⟩

/-- C2 witness: the engine-level total-distance equation applied to the
concrete scenario sequence. -/
theorem total_distance_is_consecutive_sum_witness :
    ((calculate_movement_stats scenarioC2 30).bind (fun s => s.forHand Hand.Left) =
      some (mkHandStats (scenarioC2.filter (fun d => d.hand == Hand.Left)) 30)) ∧
    (mkHandStats (scenarioC2.filter (fun d => d.hand == Hand.Left)) 30).total_distance =
      specConsecSum (sortByFrame (scenarioC2.filter (fun d => d.hand == Hand.Left))) :=
  ⟨rfl, total_distance_is_consecutive_sum.2.1 scenarioC2 30 Hand.Left _ rfl⟩
